import Mathlib

/-!
Shallow embedding of the AngryCAPTCHA library (TypeScript) in Lean 4,
used to verify the library's natural-language specification.

The embedding translates the source file's pure data model and the
control flow of the strategy-cascade solver into executable Lean
definitions.  Stateful parts (memoized environment/config caches) are
modelled by explicit state passing; asynchronous parts (a strategy
attempt racing the timeout promise) are modelled by describing each
attempt's behaviour in a run (settles after t ms with a result; rejects
after t ms with an error message; never settles) and computing which
side of the race wins.
-/

namespace AngryCAPTCHA

/-- Models the `method` union type `'puppeteer' | 'native' | 'fallback'`
of `CaptchaSolution`. -/
inductive CaptchaMethod
  | puppeteer
  | native
  | fallback
deriving DecidableEq, Repr

/-- Models the `CaptchaSolution` interface.  `debugInfo` is an untyped
payload in the source; only its `method` tag string is modelled. -/
structure CaptchaSolution where
  solution : String
  timestamp : String
  solveTime : Nat
  method : CaptchaMethod
  debugInfo : Option String := none
deriving DecidableEq, Repr

/-- Models the `CaptchaSolveResult` interface.  `formData` is a
`URLSearchParams`, modelled as an ordered list of key/value pairs. -/
structure CaptchaSolveResult where
  success : Bool
  solution : Option CaptchaSolution := none
  error : Option String := none
  formData : Option (List (String × String)) := none
  solveTime : Option Nat := none
deriving DecidableEq, Repr

/-- Models the `CaptchaChallenge` interface. -/
structure CaptchaChallenge where
  sitekey : String
  puzzleEndpoint : Option String := none
  difficulty : Option Nat := none
  lang : Option String := none
  startMode : Option String := none
deriving DecidableEq, Repr

/-- Models the `EnvironmentInfo` interface. -/
structure EnvironmentInfo where
  isDevelopment : Bool
  isProduction : Bool
  isServerless : Bool
  platform : String
  puppeteerAvailable : Bool
  chromeAvailable : Bool
deriving DecidableEq, Repr

/-- Models the nested `resourceLimits` record of `SolverConfig`. -/
structure ResourceLimits where
  maxMemory : Nat
  maxCpuUsage : Nat
deriving DecidableEq, Repr

/-- Models the `SolverConfig` interface. -/
structure SolverConfig where
  timeout : Nat
  maxRetries : Nat
  enablePuppeteer : Bool
  enableHttpFallback : Bool
  enableAntiDetection : Bool
  resourceLimits : ResourceLimits
deriving DecidableEq, Repr

/-! ## JavaScript string helpers

These model the exact `String.prototype` operations the source uses;
strings are handled as their character lists. -/

/-- Models JS `needle.isPrefix`-style test: is `p` a prefix of `s`
(`String.prototype.startsWith`). -/
def strStartsWith (s p : String) : Bool :=
  p.toList.isPrefixOf s.toList

/-- One step of substring search: does `needle` occur in `hay`
starting at any position (JS `String.prototype.includes` on char
lists)? -/
def infixAt (needle : List Char) : List Char → Bool
  | [] => needle.isPrefixOf []
  | a :: t => if needle.isPrefixOf (a :: t) then true else infixAt needle t

/-- Models JS `s.includes(sub)`. -/
def strContains (s sub : String) : Bool :=
  infixAt sub.toList s.toList

/-- Models JS `s.substring(0, n)`. -/
def jsTake (s : String) (n : Nat) : String :=
  String.mk (s.toList.take n)

/-- Models JS `s.toLowerCase()` (character-wise case folding). -/
def strToLower (s : String) : String :=
  String.mk (s.toList.map Char.toLower)

/-! ## The strategy cascade (`solveCaptcha`, lines 735-789)

Each strategy in a particular run is described by a `StrategyBehavior`:
its promise settles with a `CaptchaSolveResult` after some time,
rejects with an error message after some time, or never settles.
`Promise.race` of the attempt against `createTimeout(ms)` is computed
by `raceWithTimeout`.  Wall-clock time is modelled as the sum of the
time consumed by each raced attempt. -/

/-- How one strategy's `attempt` promise behaves in a given run. -/
inductive StrategyBehavior
  | settles (after : Nat) (result : CaptchaSolveResult)
  | throws (after : Nat) (msg : String)
  | pending
deriving DecidableEq, Repr

/-- Outcome of racing one attempt against the timeout promise:
which side settled first, carrying the time consumed. -/
inductive RaceOutcome
  | resolved (result : CaptchaSolveResult) (elapsed : Nat)
  | rejected (msg : String) (elapsed : Nat)
deriving DecidableEq, Repr

/-- Models `createTimeout` (lines 1216-1220): the message of the
`Error` the timeout promise rejects with. -/
def createTimeoutMessage (ms : Nat) : String :=
  "Timeout after " ++ toString ms ++ "ms"

/-- `Promise.race([strategy(), createTimeout(ms)])`: the strategy's
settlement wins if it happens no later than the timer; if the strategy
is still pending when the timer fires the race rejects with the
timeout error. -/
def raceWithTimeout (b : StrategyBehavior) (ms : Nat) : RaceOutcome :=
  match b with
  | .settles t r => if t ≤ ms then .resolved r t else .rejected (createTimeoutMessage ms) ms
  | .throws t m => if t ≤ ms then .rejected m t else .rejected (createTimeoutMessage ms) ms
  | .pending => .rejected (createTimeoutMessage ms) ms

/-- Time consumed by one raced attempt. -/
def raceElapsed (ms : Nat) (b : StrategyBehavior) : Nat :=
  match raceWithTimeout b ms with
  | .resolved _ t => t
  | .rejected _ t => t

/-- The `for` loop of `solveCaptcha` (lines 756-779) plus the final
aggregate failure (lines 781-788).  `elapsed` is the wall-clock time
consumed so far (`Date.now() - startTime`), `lastError` the error text
retained from the most recent rejected attempt.  A resolved attempt
whose result has `success = false` falls through the `if` without
touching `lastError`; only a rejection (a thrown error or the timeout)
is caught and retained. -/
def solveCaptchaLoop (timeout : Nat) :
    List StrategyBehavior → Nat → String → CaptchaSolveResult
  | [], elapsed, lastError =>
      { success := false
        error := some ("All strategies failed. Last error: " ++ lastError)
        solveTime := some elapsed }
  | b :: rest, elapsed, lastError =>
      match raceWithTimeout b timeout with
      | .resolved r t =>
          if r.success then { r with solveTime := some (elapsed + t) }
          else solveCaptchaLoop timeout rest (elapsed + t) lastError
      | .rejected m t => solveCaptchaLoop timeout rest (elapsed + t) m

/-- Models `solveCaptcha` once the strategy list is built: run the
cascade from time 0 with `lastError` initialized to `''`. -/
def solveCaptchaModel (timeout : Nat) (behaviors : List StrategyBehavior) :
    CaptchaSolveResult :=
  solveCaptchaLoop timeout behaviors 0 ""

/-- The attempt at behaviour `b`, raced against the timeout, does not
produce a successful result (it rejects, or resolves with
`success = false`). -/
def attemptFailsB (timeout : Nat) (b : StrategyBehavior) : Bool :=
  match raceWithTimeout b timeout with
  | .resolved r _ => !r.success
  | .rejected _ _ => true

/-- The strategy call is still pending when the timer fires. -/
def isPendingPastB (timeout : Nat) (b : StrategyBehavior) : Bool :=
  match b with
  | .settles t _ => timeout < t
  | .throws t _ => timeout < t
  | .pending => true

/-- The error messages of the rejected (thrown or timed-out) attempts,
in cascade order.  Attempts that resolve with a failure result
contribute nothing. -/
def rejectedMsgs (timeout : Nat) (bs : List StrategyBehavior) : List String :=
  bs.filterMap fun b =>
    match raceWithTimeout b timeout with
    | .rejected m _ => some m
    | .resolved _ _ => none

/-- Identifiers for the three strategy classes pushed onto the
strategy list in `solveCaptcha` (lines 743-754). -/
inductive StrategyId
  | puppeteer
  | http
  | apiSimulation
deriving DecidableEq, Repr

/-- Models the strategy-list construction of `solveCaptcha`
(lines 743-754). -/
def buildStrategies (config : SolverConfig) : List StrategyId :=
  (if config.enablePuppeteer then [StrategyId.puppeteer] else []) ++
    (if config.enableHttpFallback then [StrategyId.http, StrategyId.apiSimulation] else [])

/-- The success result constructed by `solveCaptchaWithHttp`
(lines 573-584). -/
def httpSuccessResult (solution sitekey timestamp : String) (solveTime : Nat) :
    CaptchaSolveResult :=
  { success := true
    solution := some
      { solution := solution
        timestamp := timestamp
        solveTime := solveTime
        method := .fallback
        debugInfo := some "http-fallback" }
    formData := some [("frc-captcha-solution", solution), ("frc-captcha-sitekey", sitekey)]
    solveTime := some solveTime }

/-- The failure result constructed by `solveCaptchaWithHttp`
(lines 591-595). -/
def httpFailureResult (errMsg : String) (solveTime : Nat) : CaptchaSolveResult :=
  { success := false
    error := some errMsg
    solveTime := some solveTime }

/-- The `SolveResult` invariant of the spec: `solution` is present iff
the result succeeded, `error` is present iff it failed. -/
def wellFormed (r : CaptchaSolveResult) : Prop :=
  (r.solution.isSome ↔ r.success = true) ∧ (r.error.isSome ↔ r.success = false)

instance (r : CaptchaSolveResult) : Decidable (wellFormed r) := by
  unfold wellFormed; infer_instance

/-- Every result a behaviour can resolve with is well formed.  (The
library's own strategies only ever resolve with well-formed results.) -/
def behaviorWF (b : StrategyBehavior) : Prop :=
  match b with
  | .settles _ r => wellFormed r
  | _ => True

instance (b : StrategyBehavior) : Decidable (behaviorWF b) := by
  unfold behaviorWF; cases b <;> infer_instance

/-! ## Regular-expression cascade of `extractCaptchaChallenge`
(lines 445-521) and `extractValue` (lines 526-534)

The source's patterns use only: case-insensitive literals, the quote
classes `["']` / `[^"']` (and single-quote / double-quote variants),
`[^,]`, `\s*`, `\d`, `.` (`.*`), and one capturing group of the form
`(C+)` for a character class `C`.  The engine below implements exactly
these constructs with JS semantics: leftmost match, greedy repetition
with backtracking, `/i` case folding on literals. -/

/-- A single-character matcher (character class). -/
inductive RClass
  | lit (c : Char)
  | notIn (cs : List Char)
  | oneOf (cs : List Char)
  | anyChar
  | ws
  | digit
deriving DecidableEq, Repr

/-- Does character `ch` match the class?  Literals fold case (the `/i`
flag); `.` excludes line terminators; `\s` is the JS whitespace class
(the common members). -/
def classMatch : RClass → Char → Bool
  | .lit c, ch => ch.toLower == c.toLower
  | .notIn cs, ch => !(cs.contains ch)
  | .oneOf cs, ch => cs.contains ch
  | .anyChar, ch =>
      !(ch == '\n' || ch == '\r' || ch == ' ' || ch == ' ')
  | .ws, ch =>
      ch == ' ' || ch == '\t' || ch == '\n' || ch == '\r' ||
        ch == '\x0b' || ch == '\x0c' || ch == ' '
  | .digit, ch => '0' ≤ ch && ch ≤ '9'

/-- One item of a compiled pattern: a single class, a greedy `C*`, or
the (unique) greedy capturing group `(C+)`. -/
inductive RItem
  | one (c : RClass)
  | star (c : RClass)
  | capPlus (c : RClass)
deriving DecidableEq, Repr

/-- Length of the maximal run of characters of class `c` at the front
of `s` (a greedy `C*`/`C+` can consume exactly the prefixes of this
run). -/
def runLengths (c : RClass) : List Char → Nat
  | [] => 0
  | ch :: s => if classMatch c ch then runLengths c s + 1 else 0

/-- Backtracking matcher: does `items` match some prefix of `s`?
Returns `some cap` on a match, where `cap` is the capture of the
group (if one participated).  Greedy repetition is realized by trying
the longest run first and backtracking downward.  `fuel` bounds the
recursion depth; every step drops one item, so `items.length + 1` fuel
is always sufficient. -/
def matchList : Nat → List RItem → List Char → Option (List Char) →
    Option (Option (List Char))
  | 0, _, _, _ => none
  | _ + 1, [], _, cap => some cap
  | fuel + 1, RItem.one c :: rest, s, cap =>
      match s with
      | [] => none
      | ch :: s' => if classMatch c ch then matchList fuel rest s' cap else none
  | fuel + 1, RItem.star c :: rest, s, cap =>
      (List.range (runLengths c s + 1)).reverse.findSome? fun k =>
        matchList fuel rest (s.drop k) cap
  | fuel + 1, RItem.capPlus c :: rest, s, _ =>
      (List.range (runLengths c s)).reverse.findSome? fun j =>
        matchList fuel rest (s.drop (j + 1)) (some (s.take (j + 1)))

/-- Leftmost search, one start position at a time: JS
`html.match(pattern)` restricted to the capture of group 1.  Returns
`some` the group-1 text of the leftmost match, `none` when the pattern
matches nowhere. -/
def regexSearchFrom (items : List RItem) : List Char → Option String
  | [] =>
    match matchList (items.length + 1) items [] none with
    | some cap => some (String.mk (cap.getD []))
    | none => none
  | a :: s' =>
    match matchList (items.length + 1) items (a :: s') none with
    | some cap => some (String.mk (cap.getD []))
    | none => regexSearchFrom items s'

/-- `html.match(pattern)` followed by reading `match[1]`. -/
def regexMatch1 (items : List RItem) (html : String) : Option String :=
  regexSearchFrom items html.toList

/-- Compile a literal string (each character matched case-insensitively,
per the `/i` flag). -/
def lits (s : String) : List RItem :=
  s.toList.map fun c => RItem.one (RClass.lit c)

/-- The class `["']`, used around attribute values. -/
def quoteItem : RItem := RItem.one (RClass.oneOf ['"', '\''])

/-- The class `[^"']`, the body of a quoted attribute value. -/
def notQuotes : RClass := RClass.notIn ['"', '\'']

/-- `/data-sitekey=["']([^"']+)["']/i` -/
def pDataSitekey : List RItem :=
  lits "data-sitekey=" ++ [quoteItem, RItem.capPlus notQuotes, quoteItem]

/-- `/data-fc-sitekey=["']([^"']+)["']/i` -/
def pDataFcSitekey : List RItem :=
  lits "data-fc-sitekey=" ++ [quoteItem, RItem.capPlus notQuotes, quoteItem]

/-- `/sitekey:\s*["']([^"']+)["']/i` -/
def pSitekeyColon : List RItem :=
  lits "sitekey:" ++ [RItem.star RClass.ws, quoteItem, RItem.capPlus notQuotes, quoteItem]

/-- `/fc-sitekey:\s*["']([^"']+)["']/i` -/
def pFcSitekeyColon : List RItem :=
  lits "fc-sitekey:" ++ [RItem.star RClass.ws, quoteItem, RItem.capPlus notQuotes, quoteItem]

/-- `/"sitekey":\s*"([^"]+)"/i` -/
def pJsonSitekey : List RItem :=
  lits "\"sitekey\":" ++
    [RItem.star RClass.ws, RItem.one (RClass.lit '"'),
      RItem.capPlus (RClass.notIn ['"']), RItem.one (RClass.lit '"')]

/-- `/'sitekey':\s*'([^']+)'/i` -/
def pSingleQuoteSitekey : List RItem :=
  lits "'sitekey':" ++
    [RItem.star RClass.ws, RItem.one (RClass.lit '\''),
      RItem.capPlus (RClass.notIn ['\'']), RItem.one (RClass.lit '\'')]

/-- `/initCaptcha\([^,]+,\s*['"]([^'"]+)['"]\)/i` -/
def pInitCaptcha : List RItem :=
  lits "initCaptcha(" ++
    [RItem.one (RClass.notIn [',']), RItem.star (RClass.notIn [','])] ++
    lits "," ++
    [RItem.star RClass.ws, quoteItem, RItem.capPlus notQuotes, quoteItem] ++
    lits ")"

/-- `/window\..*\.initCaptcha\([^,]+,\s*['"]([^'"]+)['"]\)/i` -/
def pWindowInitCaptcha : List RItem :=
  lits "window." ++
    [RItem.star RClass.anyChar, RItem.one (RClass.lit '.')] ++
    lits "initCaptcha(" ++
    [RItem.one (RClass.notIn [',']), RItem.star (RClass.notIn [','])] ++
    lits "," ++
    [RItem.star RClass.ws, quoteItem, RItem.capPlus notQuotes, quoteItem] ++
    lits ")"

/-- The ordered site-key pattern list of `extractCaptchaChallenge`
(lines 450-463). -/
def sitekeyPatterns : List (List RItem) :=
  [pDataSitekey, pDataFcSitekey, pSitekeyColon, pFcSitekeyColon,
    pJsonSitekey, pSingleQuoteSitekey, pInitCaptcha, pWindowInitCaptcha]

/-- The two `puzzleEndpoint` patterns (lines 480-483). -/
def puzzleEndpointPatterns : List (List RItem) :=
  [lits "data-puzzle-endpoint=" ++ [quoteItem, RItem.capPlus notQuotes, quoteItem],
    lits "puzzleEndpoint:" ++ [RItem.star RClass.ws, quoteItem, RItem.capPlus notQuotes, quoteItem]]

/-- The two `difficulty` patterns (lines 485-488). -/
def difficultyPatterns : List (List RItem) :=
  [lits "data-difficulty=" ++ [quoteItem, RItem.capPlus RClass.digit, quoteItem],
    lits "difficulty:" ++ [RItem.star RClass.ws, RItem.capPlus RClass.digit]]

/-- The two `lang` patterns (lines 490-493). -/
def langPatterns : List (List RItem) :=
  [lits "data-lang=" ++ [quoteItem, RItem.capPlus notQuotes, quoteItem],
    lits "lang:" ++ [RItem.star RClass.ws, quoteItem, RItem.capPlus notQuotes, quoteItem]]

/-- The two `startMode` patterns (lines 495-498). -/
def startModePatterns : List (List RItem) :=
  [lits "data-start=" ++ [quoteItem, RItem.capPlus notQuotes, quoteItem],
    lits "start:" ++ [RItem.star RClass.ws, quoteItem, RItem.capPlus notQuotes, quoteItem]]

/-- Models `extractValue` (lines 526-534): try the patterns in order,
return the first truthy group-1 capture, `null` when none matches.
The site-key loop in `extractCaptchaChallenge` (lines 465-472) has the
same first-match-wins semantics. -/
def extractValue (html : String) : List (List RItem) → Option String
  | [] => none
  | p :: ps =>
    match regexMatch1 p html with
    | some v => if v ≠ "" then some v else extractValue html ps
    | none => extractValue html ps

/-- JS `x || undefined` on an optional string. -/
def jsOrUndef (v : Option String) : Option String :=
  match v with
  | some s => if s = "" then none else some s
  | none => none

/-- JS `parseInt` on an all-digit capture. -/
def parseIntNat (s : String) : Nat := s.toNat?.getD 0

/-- Models `extractCaptchaChallenge` (lines 445-521): find the site
key through the ordered pattern cascade (first match wins, `null`
when none matches), then resolve each optional field through its own
ordered pattern list, leaving it `undefined` when no rule matches. -/
def extractCaptchaChallenge (html : String) : Option CaptchaChallenge :=
  match extractValue html sitekeyPatterns with
  | none => none
  | some sitekey =>
    some
      { sitekey := sitekey
        puzzleEndpoint := jsOrUndef (extractValue html puzzleEndpointPatterns)
        difficulty := (extractValue html difficultyPatterns).map parseIntNat
        lang := jsOrUndef (extractValue html langPatterns)
        startMode := jsOrUndef (extractValue html startModePatterns) }

/-- The indicator substrings of `containsCaptcha` (lines 1226-1237). -/
def indicators : List String :=
  ["friendly-captcha", "frc-captcha", "FriendlyCaptcha", "data-sitekey",
    "puzzle-endpoint", "captcha-widget", "data-fc-sitekey", "c-friendlycaptcha",
    "initCaptcha", "Friendly Captcha"]

/-- Models `containsCaptcha` (lines 1225-1242):
`indicators.some(i => html.toLowerCase().includes(i.toLowerCase()))`. -/
def containsCaptcha (html : String) : Bool :=
  indicators.any fun indicator =>
    strContains (strToLower html) (strToLower indicator)

/-! ## `simpleHash`, `simulateProofOfWork`, `solvePuzzleHttp`
(lines 602-659)

JS 32-bit integer coercions (`<<`, `& hash`) are modelled on `Int`
with explicit reduction modulo `2^32` into the signed range. -/

/-- JS ToInt32: reduce modulo `2^32` into `[-2^31, 2^31)`. -/
def toInt32 (n : Int) : Int :=
  let r := n % 4294967296
  if r < 2147483648 then r else r - 4294967296

/-- One iteration of the `simpleHash` loop (lines 653-657):
`hash = ((hash << 5) - hash) + char; hash = hash & hash`.
`hash << 5` coerces to int32 and wraps; the subtraction and addition
are exact in a JS double; `hash & hash` coerces back to int32. -/
def hashStep (h : Int) (code : Nat) : Int :=
  toInt32 (toInt32 (h * 32) - h + code)

/-- Lowercase hexadecimal digit. -/
def hexDigit (n : Nat) : Char :=
  if n < 10 then Char.ofNat (48 + n) else Char.ofNat (87 + n)

/-- Digits of `n` in base 16, most significant first (empty for 0).
The fuel argument only bounds the recursion depth; `fuel = n` always
suffices since the value shrinks by a factor of 16 each step. -/
def toHexDigitsAux : Nat → Nat → List Char
  | 0, _ => []
  | fuel + 1, n =>
    if n = 0 then [] else toHexDigitsAux fuel (n / 16) ++ [hexDigit (n % 16)]

/-- Digits of `n` in base 16, most significant first (empty for 0). -/
def toHexDigits (n : Nat) : List Char := toHexDigitsAux n n

/-- JS `n.toString(16)` for a non-negative integer. -/
def natToHex (n : Nat) : String :=
  if n = 0 then "0" else String.mk (toHexDigits n)

/-- Models `simpleHash` (lines 651-659): iterate `hashStep` over the
character codes, then `Math.abs(hash).toString(16)`. -/
def simpleHash (s : String) : String :=
  natToHex (s.toList.foldl (fun h ch => hashStep h ch.toNat) 0).natAbs

/-- The target of the nonce search (line 634):
`'0'.repeat(Math.floor(difficulty / 1000))`. -/
def powTarget (difficulty : Nat) : String :=
  String.mk (List.replicate (difficulty / 1000) '0')

/-- The bounded nonce loop of `simulateProofOfWork` (lines 636-642):
at most `fuel` iterations, hashing `data + nonce` and returning the
first hash that starts with the target. -/
def powLoop (data tgt : String) : Nat → Nat → Option String
  | 0, _ => none
  | fuel + 1, nonce =>
    let h := simpleHash (data ++ toString nonce)
    if strStartsWith h tgt then some h else powLoop data tgt fuel (nonce + 1)

/-- Models `simulateProofOfWork` (lines 631-646): search nonces
`0..9999`; if none matches, fall back to the hash of
`data + Date.now()` (`now` is the clock reading at fallback time). -/
def simulateProofOfWork (data : String) (difficulty : Nat) (now : Nat) : String :=
  match powLoop data (powTarget difficulty) 10000 0 with
  | some h => h
  | none => simpleHash (data ++ toString now)

/-- JS `x || d` on an optional number (`0` is falsy). -/
def jsOrNat (v : Option Nat) (d : Nat) : Nat :=
  match v with
  | some n => if n = 0 then d else n
  | none => d

/-- The solver-relevant fields of the fetched puzzle JSON. -/
structure PuzzleData where
  data : Option String
  difficulty : Option Nat
deriving DecidableEq, Repr

/-- Models `solvePuzzleHttp` (lines 602-626).  `ts` is the
`Date.now()` reading taken before the work (`timestamp`, line 609);
`powNow` the later reading used inside the fallback branch of
`simulateProofOfWork`.  Returns `null` when `puzzleData` or
`puzzleData.data` is falsy; otherwise the token
`prefix + '.' + workValue + '.' + timestamp` with the prefix the first
16 characters of the puzzle data. -/
def solvePuzzleHttp (pd : Option PuzzleData) (ts powNow : Nat) : Option String :=
  match pd with
  | none => none
  | some p =>
    match p.data with
    | none => none
    | some d =>
      if d = "" then none
      else
        let difficulty := jsOrNat p.difficulty 1000
        let pfx := jsTake d 16
        let workValue := simulateProofOfWork d difficulty powNow
        some (pfx ++ "." ++ workValue ++ "." ++ toString ts)

/-! ## `detectEnvironment` (lines 238-295) and `getConfig`
(lines 300-322)

Both are memoized in static fields; the state is modelled explicitly.
The process environment read by `detectEnvironment` is a record of the
environment variables it consults plus the outcome of
`require('puppeteer')` and of `fs.existsSync`. -/

/-- The environment state `detectEnvironment` reads. -/
structure ProcessEnv where
  nodeEnv : Option String
  vercel : Option String
  netlify : Option String
  awsLambdaFunctionName : Option String
  functionName : Option String
  cfPages : Option String
  chromePath : Option String
  puppeteerExecutablePath : Option String
  puppeteerRequireOk : Bool
  fileExists : String → Bool

/-- JS truthiness of an optional environment-variable string. -/
def envTruthy (v : Option String) : Bool :=
  match v with
  | some s => !s.isEmpty
  | none => false

/-- JS `a || b` on optional strings. -/
def jsOrStr (a b : Option String) : Option String :=
  if envTruthy a then a else b

/-- The body of `detectEnvironment` below its cache check
(lines 243-291). -/
def detectEnvironmentCompute (p : ProcessEnv) : EnvironmentInfo :=
  let isDevelopment := p.nodeEnv == some "development"
  let isProduction := p.nodeEnv == some "production"
  let isServerless := envTruthy p.vercel || envTruthy p.netlify ||
    envTruthy p.awsLambdaFunctionName || envTruthy p.functionName || envTruthy p.cfPages
  let platform :=
    if envTruthy p.vercel then "vercel"
    else if envTruthy p.netlify then "netlify"
    else if envTruthy p.awsLambdaFunctionName then "aws-lambda"
    else if envTruthy p.cfPages then "cloudflare"
    else if isDevelopment then "development"
    else "server"
  if !p.puppeteerRequireOk then
    { isDevelopment := isDevelopment, isProduction := isProduction
      isServerless := isServerless, platform := platform
      puppeteerAvailable := false, chromeAvailable := false }
  else
    let chromePath := jsOrStr p.chromePath (jsOrStr p.puppeteerExecutablePath
      (if platform == "vercel" then some "/usr/bin/chromium-browser" else none))
    let chromeAvailable :=
      if envTruthy chromePath then p.fileExists (chromePath.getD "")
      else !isServerless
    { isDevelopment := isDevelopment, isProduction := isProduction
      isServerless := isServerless, platform := platform
      puppeteerAvailable := true, chromeAvailable := chromeAvailable }

/-- The static memoization fields `environmentInfo` / `solverConfig`. -/
structure SolverState where
  environmentInfo : Option EnvironmentInfo
  solverConfig : Option SolverConfig

/-- Both caches empty: the state at process start. -/
def initialSolverState : SolverState := ⟨none, none⟩

/-- Models `detectEnvironment` (lines 238-295): return the cached
profile when present, otherwise compute it from the process
environment and cache it. -/
def detectEnvironment (p : ProcessEnv) (st : SolverState) :
    EnvironmentInfo × SolverState :=
  match st.environmentInfo with
  | some info => (info, st)
  | none =>
    let info := detectEnvironmentCompute p
    (info, { st with environmentInfo := some info })

/-- The body of `getConfig` below its cache check (lines 307-318). -/
def getConfigCompute (env : EnvironmentInfo) : SolverConfig :=
  { timeout := if env.isProduction then 20000 else 30000
    maxRetries := if env.isProduction then 2 else 3
    enablePuppeteer := env.puppeteerAvailable && env.chromeAvailable && !env.isServerless
    enableHttpFallback := true
    enableAntiDetection := env.isProduction
    resourceLimits :=
      { maxMemory := if env.isServerless then 512 else 1024
        maxCpuUsage := if env.isServerless then 80 else 90 } }

/-- Models `getConfig` (lines 300-322): cached, otherwise derived from
the (possibly cached) environment profile. -/
def getConfig (p : ProcessEnv) (st : SolverState) : SolverConfig × SolverState :=
  match st.solverConfig with
  | some cfg => (cfg, st)
  | none =>
    let (env, st') := detectEnvironment p st
    let cfg := getConfigCompute env
    (cfg, { st' with solverConfig := some cfg })

/-! ## Helper lemmas about the cascade loop -/

/-- A behaviour whose race resolves is a settlement with the resolved
result. -/
theorem race_resolved_inv {timeout : Nat} {b : StrategyBehavior}
    {r : CaptchaSolveResult} {t : Nat}
    (hb : behaviorWF b) (hrace : raceWithTimeout b timeout = RaceOutcome.resolved r t) :
    wellFormed r := by
  cases b with
  | settles t0 r0 =>
    simp only [raceWithTimeout] at hrace
    split at hrace
    · injection hrace with h1 h2
      subst h1
      exact hb
    · cases hrace
  | throws t0 m0 =>
    simp only [raceWithTimeout] at hrace
    split at hrace <;> cases hrace
  | pending =>
    simp only [raceWithTimeout] at hrace
    cases hrace

/-- When every raced attempt fails, the loop returns the aggregate
failure whose retained `lastError` is the message of the last
*rejected* attempt (or the incoming `lastError` when no attempt
rejected). -/
theorem solveCaptchaLoop_allFail (timeout : Nat) :
    ∀ (bs : List StrategyBehavior) (elapsed : Nat) (lastError : String),
      (∀ b ∈ bs, attemptFailsB timeout b = true) →
      (solveCaptchaLoop timeout bs elapsed lastError).success = false ∧
      (solveCaptchaLoop timeout bs elapsed lastError).error =
        some ("All strategies failed. Last error: " ++
          (rejectedMsgs timeout bs).getLastD lastError) := by
  intro bs
  induction bs with
  | nil => intro elapsed lastError _; exact ⟨rfl, rfl⟩
  | cons b rest ih =>
    intro elapsed lastError h
    have hb := h b (List.mem_cons_self b rest)
    have hrest : ∀ b' ∈ rest, attemptFailsB timeout b' = true :=
      fun b' hb' => h b' (List.mem_cons_of_mem b hb')
    cases hrace : raceWithTimeout b timeout with
    | resolved r t =>
      simp only [attemptFailsB, hrace] at hb
      have hsucc : r.success = false := by
        cases hs : r.success
        · rfl
        · rw [hs] at hb; simp at hb
      have hmsgs : rejectedMsgs timeout (b :: rest) = rejectedMsgs timeout rest := by
        simp only [rejectedMsgs, List.filterMap_cons, hrace]
      rw [hmsgs]
      simp only [solveCaptchaLoop, hrace, hsucc]
      simpa using ih (elapsed + t) lastError hrest
    | rejected m t =>
      have hmsgs : rejectedMsgs timeout (b :: rest) = m :: rejectedMsgs timeout rest := by
        simp only [rejectedMsgs, List.filterMap_cons, hrace]
      rw [hmsgs, List.getLastD_cons]
      simp only [solveCaptchaLoop, hrace]
      exact ih (elapsed + t) m hrest

/-- When every attempt before `b` fails and `b`'s race resolves
successfully, the loop short-circuits at `b`, spreading `b`'s result
with the total elapsed time. -/
theorem solveCaptchaLoop_firstSuccess (timeout : Nat) (b : StrategyBehavior)
    (r : CaptchaSolveResult) (t : Nat) (post : List StrategyBehavior)
    (hr : raceWithTimeout b timeout = RaceOutcome.resolved r t)
    (hs : r.success = true) :
    ∀ (pre : List StrategyBehavior) (elapsed : Nat) (lastError : String),
      (∀ b' ∈ pre, attemptFailsB timeout b' = true) →
      solveCaptchaLoop timeout (pre ++ b :: post) elapsed lastError =
        { r with solveTime := some (elapsed + ((pre.map (raceElapsed timeout)).sum + t)) } := by
  intro pre
  induction pre with
  | nil =>
    intro elapsed lastError _
    show solveCaptchaLoop timeout (b :: post) elapsed lastError = _
    simp only [solveCaptchaLoop, hr, hs, if_pos]
    simp
  | cons a pre ih =>
    intro elapsed lastError h
    have ha := h a (List.mem_cons_self a pre)
    have hpre : ∀ b' ∈ pre, attemptFailsB timeout b' = true :=
      fun b' hb' => h b' (List.mem_cons_of_mem a hb')
    have hsum : ((a :: pre).map (raceElapsed timeout)).sum =
        raceElapsed timeout a + (pre.map (raceElapsed timeout)).sum := by
      simp
    cases hrace : raceWithTimeout a timeout with
    | resolved r' t' =>
      simp only [attemptFailsB, hrace] at ha
      have hsucc : r'.success = false := by
        cases hs' : r'.success
        · rfl
        · rw [hs'] at ha; simp at ha
      have hel : raceElapsed timeout a = t' := by
        simp only [raceElapsed, hrace]
      show solveCaptchaLoop timeout (a :: (pre ++ b :: post)) elapsed lastError = _
      simp only [solveCaptchaLoop, hrace, hsucc]
      rw [ih (elapsed + t') lastError hpre, hsum, hel]
      have harith : elapsed + t' + ((pre.map (raceElapsed timeout)).sum + t) =
          elapsed + (t' + (pre.map (raceElapsed timeout)).sum + t) := by omega
      rw [harith]
      simp
    | rejected m t' =>
      have hel : raceElapsed timeout a = t' := by
        simp only [raceElapsed, hrace]
      show solveCaptchaLoop timeout (a :: (pre ++ b :: post)) elapsed lastError = _
      simp only [solveCaptchaLoop, hrace]
      rw [ih (elapsed + t') m hpre, hsum, hel]
      have harith : elapsed + t' + ((pre.map (raceElapsed timeout)).sum + t) =
          elapsed + (t' + (pre.map (raceElapsed timeout)).sum + t) := by omega
      rw [harith]

/-- The cascade loop preserves the `SolveResult` invariant. -/
theorem solveCaptchaLoop_wellFormed (timeout : Nat) :
    ∀ (bs : List StrategyBehavior) (elapsed : Nat) (lastError : String),
      (∀ b ∈ bs, behaviorWF b) →
      wellFormed (solveCaptchaLoop timeout bs elapsed lastError) := by
  intro bs
  induction bs with
  | nil =>
    intro elapsed lastError _
    refine ⟨?_, ?_⟩ <;> simp [solveCaptchaLoop]
  | cons b rest ih =>
    intro elapsed lastError h
    have hb := h b (List.mem_cons_self b rest)
    have hrest : ∀ b' ∈ rest, behaviorWF b' :=
      fun b' hb' => h b' (List.mem_cons_of_mem b hb')
    cases hrace : raceWithTimeout b timeout with
    | resolved r t =>
      have hwf : wellFormed r := race_resolved_inv hb hrace
      cases hs : r.success
      · simp only [solveCaptchaLoop, hrace, hs]
        simpa using ih (elapsed + t) lastError hrest
      · simp only [solveCaptchaLoop, hrace, hs, if_pos]
        constructor
        · simpa [hs] using hwf.1
        · simpa [hs] using hwf.2
    | rejected m t =>
      simp only [solveCaptchaLoop, hrace]
      exact ih (elapsed + t) m hrest

/-! ## Claim C1 -/

/-- C1 counterexample: with an empty strategy list `solveCaptcha`'s
failure error is the generic aggregate message with an empty
`lastError`; it is not a "no strategies attempted" message and does
not mention zero attempts. -/
theorem C1_counterexample :
    (solveCaptchaModel 30000 []).success = false ∧
    (solveCaptchaModel 30000 []).error = some "All strategies failed. Last error: " ∧
    strContains ((solveCaptchaModel 30000 []).error.getD "") "no strategies" = false ∧
    strContains ((solveCaptchaModel 30000 []).error.getD "") "zero" = false ∧
    strContains ((solveCaptchaModel 30000 []).error.getD "") "attempt" = false := by
  decide

/-- C1 (amended): under any config whose built strategy list is empty,
`solveCaptcha` returns a failure result immediately (no time elapses,
no strategy is invoked), but its error is the generic
`"All strategies failed. Last error: "` with the empty initial
`lastError` — there is no dedicated "no strategies attempted"
message. -/
theorem solveCaptcha_empty_strategy_list (timeout : Nat) :
    solveCaptchaModel timeout [] =
      { success := false, solution := none,
        error := some "All strategies failed. Last error: ",
        formData := none, solveTime := some 0 } := rfl

/-! ## Claim C2 -/

/-- C2 counterexample: both attempts fail, the last failing attempt
resolves with error text `"late error"`, but the aggregate error
retains `"boom"` — the message of the last *thrown* attempt — because
a resolved failure result never updates `lastError`. -/
theorem C2_counterexample :
    (∀ b ∈ [StrategyBehavior.throws 1 "boom",
        StrategyBehavior.settles 1 (httpFailureResult "late error" 1)],
      attemptFailsB 100 b = true) ∧
    (solveCaptchaModel 100 [StrategyBehavior.throws 1 "boom",
        StrategyBehavior.settles 1 (httpFailureResult "late error" 1)]).error =
      some "All strategies failed. Last error: boom" ∧
    (solveCaptchaModel 100 [StrategyBehavior.throws 1 "boom",
        StrategyBehavior.settles 1 (httpFailureResult "late error" 1)]).error ≠
      some ("All strategies failed. Last error: " ++ "late error") := by
  decide

/-- C2 (amended): when every attempted strategy fails, `solveCaptcha`
returns failure with error
`"All strategies failed. Last error: <lastError>"`, where
`<lastError>` is the error text of the last attempt that failed by
*rejection* (a thrown error or a timeout) — or the empty string if no
attempt rejected.  Attempts that fail by resolving with a failure
result do not update `lastError`. -/
theorem solveCaptcha_allFailed_error (timeout : Nat) (bs : List StrategyBehavior)
    (h : ∀ b ∈ bs, attemptFailsB timeout b = true) :
    (solveCaptchaModel timeout bs).success = false ∧
    (solveCaptchaModel timeout bs).error =
      some ("All strategies failed. Last error: " ++
        (rejectedMsgs timeout bs).getLastD "") :=
  solveCaptchaLoop_allFail timeout bs 0 "" h

/-- Witness for C2's theorem at a concrete run. -/
theorem solveCaptcha_allFailed_error_witness :
    (solveCaptchaModel 100 [StrategyBehavior.throws 1 "boom",
        StrategyBehavior.settles 1 (httpFailureResult "late error" 1)]).success = false ∧
    (solveCaptchaModel 100 [StrategyBehavior.throws 1 "boom",
        StrategyBehavior.settles 1 (httpFailureResult "late error" 1)]).error =
      some ("All strategies failed. Last error: " ++
        (rejectedMsgs 100 [StrategyBehavior.throws 1 "boom",
          StrategyBehavior.settles 1 (httpFailureResult "late error" 1)]).getLastD "") :=
  solveCaptcha_allFailed_error 100
    [StrategyBehavior.throws 1 "boom",
      StrategyBehavior.settles 1 (httpFailureResult "late error" 1)] (by decide)

/-! ## Claim C3 -/

/-- C3: the cascade stops at the first successful attempt — all
earlier attempts fail, the winning attempt's result is returned
(carrying its `solution` and hence its `method` tag) regardless of any
later strategies, and the returned top-level `solveTime` is the
wall-clock time of the whole call (the time consumed by all earlier
attempts plus the winning one), not the winning attempt's own time. -/
theorem solveCaptcha_shortCircuit (timeout : Nat) (pre post : List StrategyBehavior)
    (b : StrategyBehavior) (r : CaptchaSolveResult) (t : Nat)
    (hpre : ∀ b' ∈ pre, attemptFailsB timeout b' = true)
    (hr : raceWithTimeout b timeout = RaceOutcome.resolved r t)
    (hs : r.success = true) :
    solveCaptchaModel timeout (pre ++ b :: post) =
      { r with solveTime := some ((pre.map (raceElapsed timeout)).sum + t) } ∧
    (solveCaptchaModel timeout (pre ++ b :: post)).solution = r.solution ∧
    (solveCaptchaModel timeout (pre ++ b :: post)).success = true := by
  have h := solveCaptchaLoop_firstSuccess timeout b r t post hr hs pre 0 "" hpre
  rw [Nat.zero_add] at h
  have hmain : solveCaptchaModel timeout (pre ++ b :: post) =
      { r with solveTime := some ((pre.map (raceElapsed timeout)).sum + t) } := h
  refine ⟨hmain, ?_, ?_⟩
  · rw [hmain]
  · rw [hmain]; exact hs

/-- Witness for C3's theorem: first strategy throws, second succeeds
with `"tok1"`, a third (never-settling) strategy is present but never
reached. -/
theorem solveCaptcha_shortCircuit_witness :
    solveCaptchaModel 100
        ([StrategyBehavior.throws 3 "boom"] ++
          StrategyBehavior.settles 5 (httpSuccessResult "tok1" "sk" "t0" 5) ::
            [StrategyBehavior.pending]) =
      { httpSuccessResult "tok1" "sk" "t0" 5 with
          solveTime := some (([StrategyBehavior.throws 3 "boom"].map (raceElapsed 100)).sum + 5) } ∧
    (solveCaptchaModel 100
        ([StrategyBehavior.throws 3 "boom"] ++
          StrategyBehavior.settles 5 (httpSuccessResult "tok1" "sk" "t0" 5) ::
            [StrategyBehavior.pending])).solution =
      (httpSuccessResult "tok1" "sk" "t0" 5).solution ∧
    (solveCaptchaModel 100
        ([StrategyBehavior.throws 3 "boom"] ++
          StrategyBehavior.settles 5 (httpSuccessResult "tok1" "sk" "t0" 5) ::
            [StrategyBehavior.pending])).success = true :=
  solveCaptcha_shortCircuit 100 [StrategyBehavior.throws 3 "boom"]
    [StrategyBehavior.pending]
    (StrategyBehavior.settles 5 (httpSuccessResult "tok1" "sk" "t0" 5))
    (httpSuccessResult "tok1" "sk" "t0" 5) 5 (by decide) (by decide) (by decide)

/-! ## Claim C4 -/

/-- C4 counterexample: the recorded timeout error text is
`"Timeout after 50ms"` (capital `T`), not the claimed
`"timeout after 50ms"`. -/
theorem C4_counterexample :
    raceWithTimeout StrategyBehavior.pending 50 =
      RaceOutcome.rejected "Timeout after 50ms" 50 ∧
    raceWithTimeout StrategyBehavior.pending 50 ≠
      RaceOutcome.rejected "timeout after 50ms" 50 := by
  decide

/-- C4 (amended): an attempt still pending when the `timeoutMs` timer
fires is treated as a rejected (timed-out) attempt whose recorded
error text is `"Timeout after <ms>ms"` (capital `T`) with `<ms>` the
configured budget, and the cascade proceeds to the next strategy with
that text retained as `lastError`. -/
theorem solveCaptcha_timeoutAttempt (timeout : Nat) (b : StrategyBehavior)
    (rest : List StrategyBehavior) (h : isPendingPastB timeout b = true) :
    raceWithTimeout b timeout =
      RaceOutcome.rejected (createTimeoutMessage timeout) timeout ∧
    createTimeoutMessage timeout = "Timeout after " ++ toString timeout ++ "ms" ∧
    solveCaptchaModel timeout (b :: rest) =
      solveCaptchaLoop timeout rest timeout (createTimeoutMessage timeout) := by
  have hrace : raceWithTimeout b timeout =
      RaceOutcome.rejected (createTimeoutMessage timeout) timeout := by
    cases b with
    | settles t r =>
      simp only [isPendingPastB, decide_eq_true_eq] at h
      simp only [raceWithTimeout, if_neg (Nat.not_le.mpr h)]
    | throws t m =>
      simp only [isPendingPastB, decide_eq_true_eq] at h
      simp only [raceWithTimeout, if_neg (Nat.not_le.mpr h)]
    | pending => rfl
  refine ⟨hrace, rfl, ?_⟩
  simp only [solveCaptchaModel, solveCaptchaLoop, hrace, Nat.zero_add]

/-- Witness for C4's theorem at a concrete pending attempt. -/
theorem solveCaptcha_timeoutAttempt_witness :
    raceWithTimeout StrategyBehavior.pending 50 =
      RaceOutcome.rejected (createTimeoutMessage 50) 50 ∧
    createTimeoutMessage 50 = "Timeout after " ++ toString 50 ++ "ms" ∧
    solveCaptchaModel 50 (StrategyBehavior.pending ::
        [StrategyBehavior.settles 1 (httpSuccessResult "tok" "sk" "t0" 1)]) =
      solveCaptchaLoop 50 [StrategyBehavior.settles 1 (httpSuccessResult "tok" "sk" "t0" 1)]
        50 (createTimeoutMessage 50) :=
  solveCaptcha_timeoutAttempt 50 StrategyBehavior.pending
    [StrategyBehavior.settles 1 (httpSuccessResult "tok" "sk" "t0" 1)] (by decide)

/-! ## Claim C7 -/

/-- C7: every result of the cascade satisfies the exclusive
solution/error invariant, provided each strategy only resolves with
invariant-respecting results — which the library's own strategies do,
as shown by the result constructors of `solveCaptchaWithHttp`. -/
theorem solveCaptcha_solution_error_exclusive (timeout : Nat)
    (bs : List StrategyBehavior) (h : ∀ b ∈ bs, behaviorWF b) :
    wellFormed (solveCaptchaModel timeout bs) ∧
    (∀ s k ts n, wellFormed (httpSuccessResult s k ts n)) ∧
    (∀ e n, wellFormed (httpFailureResult e n)) := by
  refine ⟨solveCaptchaLoop_wellFormed timeout bs 0 "" h, ?_, ?_⟩
  · intro s k ts n
    exact ⟨by simp [httpSuccessResult], by simp [httpSuccessResult]⟩
  · intro e n
    exact ⟨by simp [httpFailureResult], by simp [httpFailureResult]⟩

/-- Witness for C7's theorem at a concrete run. -/
theorem solveCaptcha_solution_error_exclusive_witness :
    wellFormed (solveCaptchaModel 30000
      [StrategyBehavior.settles 1 (httpFailureResult "x" 1),
        StrategyBehavior.settles 2 (httpSuccessResult "tok" "sk" "ts" 2)]) ∧
    (∀ s k ts n, wellFormed (httpSuccessResult s k ts n)) ∧
    (∀ e n, wellFormed (httpFailureResult e n)) :=
  solveCaptcha_solution_error_exclusive 30000
    [StrategyBehavior.settles 1 (httpFailureResult "x" 1),
      StrategyBehavior.settles 2 (httpSuccessResult "tok" "sk" "ts" 2)] (by decide)

/-! ## Claims C5 and C6 -/

/-- The substring search `infixAt` agrees with Mathlib's
`List.IsInfix`. -/
theorem infixAt_iff (needle : List Char) :
    ∀ hay : List Char, infixAt needle hay = true ↔ needle <:+: hay := by
  intro hay
  induction hay with
  | nil =>
    simp only [infixAt]
    constructor
    · intro h
      exact (( List.isPrefixOf_iff_prefix).mp h).isInfix
    · intro h
      have hnil : needle = [] := List.eq_nil_of_infix_nil h
      subst hnil
      rfl
  | cons a t ih =>
    simp only [infixAt]
    by_cases hp : needle.isPrefixOf (a :: t) = true
    · rw [if_pos hp]
      constructor
      · intro _
        exact (( List.isPrefixOf_iff_prefix).mp hp).isInfix
      · intro _
        rfl
    · rw [if_neg hp, ih]
      constructor
      · intro h
        exact List.infix_cons h
      · intro h
        rcases ( List.infix_cons_iff).mp h with hpre | htail
        · exact absurd (( List.isPrefixOf_iff_prefix).mpr hpre) hp
        · exact htail

/-- C5: the site-key rules are evaluated in order with the first
matching rule winning; extraction returns `null` when no site-key
rule matches; each optional field is resolved through its own rule
list and left unset when none of its rules matches; and on
`'<div data-sitekey="ABC123" data-lang="en">'` extraction yields
site key `"ABC123"` and lang `"en"` with the other optional fields
absent. -/
theorem extractCaptchaChallenge_spec :
    (∀ (html : String) (p : List RItem) (ps : List (List RItem)) (v : String),
      regexMatch1 p html = some v → v ≠ "" →
      extractValue html (p :: ps) = some v) ∧
    (∀ html : String, extractValue html sitekeyPatterns = none →
      extractCaptchaChallenge html = none) ∧
    (∀ (html : String) (c : CaptchaChallenge), extractCaptchaChallenge html = some c →
      (extractValue html puzzleEndpointPatterns = none → c.puzzleEndpoint = none) ∧
      (extractValue html difficultyPatterns = none → c.difficulty = none) ∧
      (extractValue html langPatterns = none → c.lang = none) ∧
      (extractValue html startModePatterns = none → c.startMode = none)) ∧
    extractCaptchaChallenge "<div data-sitekey=\"ABC123\" data-lang=\"en\">" =
      some { sitekey := "ABC123", puzzleEndpoint := none, difficulty := none,
             lang := some "en", startMode := none } := by
  refine ⟨?_, ?_, ?_, by decide⟩
  · intro html p ps v hm hv
    simp only [extractValue, hm]
    rw [if_pos hv]
  · intro html h
    simp only [extractCaptchaChallenge, h]
  · intro html c hc
    simp only [extractCaptchaChallenge] at hc
    cases hsk : extractValue html sitekeyPatterns with
    | none => rw [hsk] at hc; cases hc
    | some sk =>
      rw [hsk] at hc
      injection hc with hc
      subst hc
      refine ⟨?_, ?_, ?_, ?_⟩ <;> intro hnone <;> simp [hnone, jsOrUndef]

/-- Witness for C5's theorem: the first site-key rule wins on the
example markup, and a markup matched by no site-key rule extracts to
`null`. -/
theorem extractCaptchaChallenge_spec_witness :
    extractValue "<div data-sitekey=\"ABC123\" data-lang=\"en\">" sitekeyPatterns =
      some "ABC123" ∧
    extractCaptchaChallenge "plain page without widget" = none := by
  constructor
  · exact extractCaptchaChallenge_spec.1
      "<div data-sitekey=\"ABC123\" data-lang=\"en\">" pDataSitekey
      [pDataFcSitekey, pSitekeyColon, pFcSitekeyColon, pJsonSitekey,
        pSingleQuoteSitekey, pInitCaptcha, pWindowInitCaptcha]
      "ABC123" (by decide) (by decide)
  · exact extractCaptchaChallenge_spec.2.1 "plain page without widget" (by decide)

/-- C6: `containsCaptcha` is true exactly when the markup contains
one of the fixed indicator substrings, compared case-insensitively;
`"no captcha here"` contains none of them, and extraction on it
yields `null`. -/
theorem containsCaptcha_spec :
    (∀ html : String, containsCaptcha html = true ↔
      ∃ ind ∈ indicators, (strToLower ind).toList <:+: (strToLower html).toList) ∧
    containsCaptcha "no captcha here" = false ∧
    extractCaptchaChallenge "no captcha here" = none := by
  refine ⟨?_, by decide, by decide⟩
  intro html
  simp only [containsCaptcha, List.any_eq_true, strContains]
  constructor
  · rintro ⟨ind, hmem, hc⟩
    exact ⟨ind, hmem, (infixAt_iff _ _).mp hc⟩
  · rintro ⟨ind, hmem, hinf⟩
    exact ⟨ind, hmem, (infixAt_iff _ _).mpr hinf⟩

/-! ## Claim C8 -/

/-- If no nonce in the next `fuel` iterations matches, the bounded
loop returns `none`. -/
theorem powLoop_none (data tgt : String) :
    ∀ (fuel nonce : Nat),
      (∀ k, k < fuel →
        strStartsWith (simpleHash (data ++ toString (nonce + k))) tgt = false) →
      powLoop data tgt fuel nonce = none := by
  intro fuel
  induction fuel with
  | zero => intro nonce _; rfl
  | succ n ih =>
    intro nonce h
    have h0 := h 0 (Nat.succ_pos n)
    rw [Nat.add_zero] at h0
    simp only [powLoop, h0, Bool.false_eq_true, if_false]
    exact ih (nonce + 1) fun k hk => by
      have hx := h (k + 1) (Nat.succ_lt_succ hk)
      rwa [show nonce + (k + 1) = nonce + 1 + k by omega] at hx

/-- The bounded loop returns the hash of the first matching nonce. -/
theorem powLoop_first (data tgt : String) :
    ∀ (fuel nonce j : Nat), j < fuel →
      (∀ k, k < j →
        strStartsWith (simpleHash (data ++ toString (nonce + k))) tgt = false) →
      strStartsWith (simpleHash (data ++ toString (nonce + j))) tgt = true →
      powLoop data tgt fuel nonce = some (simpleHash (data ++ toString (nonce + j))) := by
  intro fuel
  induction fuel with
  | zero => intro nonce j hj; omega
  | succ n ih =>
    intro nonce j hj hbefore hmatch
    cases j with
    | zero =>
      rw [Nat.add_zero] at hmatch
      simp [powLoop, hmatch]
    | succ j' =>
      have h0 := hbefore 0 (Nat.succ_pos j')
      rw [Nat.add_zero] at h0
      simp only [powLoop, h0, Bool.false_eq_true, if_false]
      rw [show nonce + (j' + 1) = nonce + 1 + j' by omega] at hmatch ⊢
      exact ih (nonce + 1) j' (by omega)
        (fun k hk => by
          have hx := hbefore (k + 1) (by omega)
          rwa [show nonce + (k + 1) = nonce + 1 + k by omega] at hx)
        hmatch

/-- `toInt32` lands in the signed 32-bit range. -/
theorem toInt32_natAbs_le (x : Int) : (toInt32 x).natAbs ≤ 2147483648 := by
  have h1 : 0 ≤ x % 4294967296 := Int.emod_nonneg x (by decide)
  have h2 : x % 4294967296 < 4294967296 := Int.emod_lt_of_pos x (by decide)
  simp only [toInt32]
  split <;> omega

/-- The `simpleHash` accumulator stays in the signed 32-bit range. -/
theorem hashFold_natAbs_le (l : List Char) :
    ∀ h : Int, h.natAbs ≤ 2147483648 →
      (l.foldl (fun acc ch => hashStep acc ch.toNat) h).natAbs ≤ 2147483648 := by
  induction l with
  | nil => intro h hh; exact hh
  | cons c l ih =>
    intro h _
    simp only [List.foldl_cons]
    exact ih _ (toInt32_natAbs_le _)

/-- Hex digit count is bounded by the exponent bound, for any fuel. -/
theorem toHexDigitsAux_length_le :
    ∀ (fuel k n : Nat), n < 16 ^ k → (toHexDigitsAux fuel n).length ≤ k := by
  intro fuel
  induction fuel with
  | zero => intro k n _; simp [toHexDigitsAux]
  | succ fuel ih =>
    intro k n hn
    by_cases h0 : n = 0
    · subst h0; simp [toHexDigitsAux]
    · cases k with
      | zero =>
        have h1 : (16 : Nat) ^ 0 = 1 := rfl
        omega
      | succ k =>
        simp only [toHexDigitsAux, if_neg h0, List.length_append, List.length_cons,
          List.length_nil]
        have hdiv : n / 16 < 16 ^ k := by
          have h16 : (0 : Nat) < 16 := by decide
          rw [Nat.div_lt_iff_lt_mul h16]
          calc n < 16 ^ (k + 1) := hn
            _ = 16 ^ k * 16 := by rw [Nat.pow_succ]
        have hlen := ih k (n / 16) hdiv
        omega

/-- Hex digit count is bounded by the exponent bound. -/
theorem toHexDigits_length_le (k n : Nat) (h : n < 16 ^ k) :
    (toHexDigits n).length ≤ k :=
  toHexDigitsAux_length_le n k n h

/-- A `simpleHash` value has at most 8 hex characters. -/
theorem simpleHash_length_le (s : String) : (simpleHash s).toList.length ≤ 8 := by
  have hb : (s.toList.foldl (fun acc ch => hashStep acc ch.toNat) 0).natAbs ≤ 2147483648 :=
    hashFold_natAbs_le s.toList 0 (by decide)
  simp only [simpleHash, natToHex]
  split
  · decide
  · have hlt : (s.toList.foldl (fun acc ch => hashStep acc ch.toNat) 0).natAbs < 16 ^ 8 := by
      have hpow : (16 : Nat) ^ 8 = 4294967296 := by norm_num
      omega
    exact toHexDigits_length_le 8 _ hlt

/-- A longer list is never a prefix of a shorter one. -/
theorem isPrefixOf_eq_false_of_longer :
    ∀ (l₁ l₂ : List Char), l₂.length < l₁.length → l₁.isPrefixOf l₂ = false := by
  intro l₁
  induction l₁ with
  | nil => intro l₂ h; simp at h
  | cons a l ih =>
    intro l₂ h
    cases l₂ with
    | nil => rfl
    | cons b t =>
      have ht : t.length < l.length := by
        simp only [List.length_cons] at h
        omega
      simp [List.isPrefixOf, ih t ht]

/-- `strStartsWith` is false whenever the candidate is shorter than
the required leading string. -/
theorem strStartsWith_false_of_short (s t : String)
    (h : s.toList.length < t.toList.length) : strStartsWith s t = false :=
  isPrefixOf_eq_false_of_longer t.toList s.toList h

/-- A hash (at most 8 characters) can never start with a target of
more than 8 zeros. -/
theorem strStartsWith_powTarget_false (s : String) (diff : Nat)
    (h : 8 < diff / 1000) : strStartsWith (simpleHash s) (powTarget diff) = false := by
  apply strStartsWith_false_of_short
  have h1 := simpleHash_length_le s
  have h2 : (powTarget diff).toList.length = diff / 1000 := by
    show (List.replicate (diff / 1000) '0').length = diff / 1000
    simp
  omega

/-- C8: the nonce search checks at most 10000 nonces, hashing
`puzzleData + nonce` with `simpleHash` and returning the first hash
whose leading characters are the `'0'`-run of length
`⌊difficulty / 1000⌋`; when no nonce below the ceiling matches it
falls back to the hash of `puzzleData + currentTime`; and the token is
`<prefix>.<workValue>.<timestamp>` with the prefix the first 16
characters of the puzzle data. -/
theorem proofOfWork_spec (d : String) (diff ts powNow n : Nat) :
    ((∀ m, m < 10000 →
        strStartsWith (simpleHash (d ++ toString m)) (powTarget diff) = false) →
      simulateProofOfWork d diff powNow = simpleHash (d ++ toString powNow)) ∧
    (n < 10000 →
      (∀ m, m < n →
        strStartsWith (simpleHash (d ++ toString m)) (powTarget diff) = false) →
      strStartsWith (simpleHash (d ++ toString n)) (powTarget diff) = true →
      simulateProofOfWork d diff powNow = simpleHash (d ++ toString n)) ∧
    powTarget diff = String.mk (List.replicate (diff / 1000) '0') ∧
    (d ≠ "" → diff ≠ 0 →
      solvePuzzleHttp (some ⟨some d, some diff⟩) ts powNow =
        some (jsTake d 16 ++ "." ++ simulateProofOfWork d diff powNow ++ "."
          ++ toString ts)) := by
  refine ⟨?_, ?_, rfl, ?_⟩
  · intro h
    have hnone := powLoop_none d (powTarget diff) 10000 0 fun k hk => by
      simpa using h k hk
    simp [simulateProofOfWork, hnone]
  · intro hn hbefore hmatch
    have hfirst := powLoop_first d (powTarget diff) 10000 0 n hn
      (fun k hk => by simpa using hbefore k hk) (by simpa using hmatch)
    simp only [simulateProofOfWork, hfirst]
    simp
  · intro hd hdiff
    simp [solvePuzzleHttp, hd, jsOrNat, hdiff]

/-- Witness for C8's theorem: with difficulty 20000 the 20-zero target
exceeds any hash length, so the ceiling is reached and the fallback
hash is returned; with difficulty 0 the empty target matches nonce 0
immediately; and the token has the stated shape. -/
theorem proofOfWork_spec_witness :
    simulateProofOfWork "x" 20000 7 = simpleHash ("x" ++ toString 7) ∧
    simulateProofOfWork "y" 0 3 = simpleHash ("y" ++ toString 0) ∧
    solvePuzzleHttp (some ⟨some "x", some 20000⟩) 5 7 =
      some (jsTake "x" 16 ++ "." ++ simulateProofOfWork "x" 20000 7 ++ "."
        ++ toString 5) := by
  refine ⟨?_, ?_, ?_⟩
  · exact (proofOfWork_spec "x" 20000 5 7 0).1 fun m _ =>
      strStartsWith_powTarget_false ("x" ++ toString m) 20000 (by decide)
  · exact (proofOfWork_spec "y" 0 5 3 0).2.1 (by decide)
      (fun m hm => absurd hm (Nat.not_lt_zero m)) (by decide)
  · exact (proofOfWork_spec "x" 20000 5 7 0).2.2.2 (by decide) (by decide)

/-! ## Claims C9 and C10 -/

/-- C9: the environment profile is memoized — a second call to
`detectEnvironment` returns a value structurally identical to the
first call's, and leaves the cache untouched, even when the process
environment `p2` read on the second call differs arbitrarily from
`p1` (the environment is never re-read once cached). -/
theorem detectEnvironment_memoized (p1 p2 : ProcessEnv) (st : SolverState) :
    (detectEnvironment p2 (detectEnvironment p1 st).2).1 = (detectEnvironment p1 st).1 ∧
    (detectEnvironment p2 (detectEnvironment p1 st).2).2 = (detectEnvironment p1 st).2 := by
  cases h : st.environmentInfo with
  | none => simp [detectEnvironment, h]
  | some info => simp [detectEnvironment, h]

/-- C10: every config derived by `getConfig` has
`enableHttpFallback = true` (it is set unconditionally), so the
strategy list built by `solveCaptcha` always contains the
HTTP-fallback and API-simulation strategies and is never empty; and a
fresh-process `getConfig` yields exactly the config computed from the
detected environment. -/
theorem getConfig_strategies_never_empty :
    (∀ env : EnvironmentInfo,
      (getConfigCompute env).enableHttpFallback = true ∧
      StrategyId.http ∈ buildStrategies (getConfigCompute env) ∧
      StrategyId.apiSimulation ∈ buildStrategies (getConfigCompute env) ∧
      buildStrategies (getConfigCompute env) ≠ []) ∧
    (∀ p : ProcessEnv, (getConfig p initialSolverState).1 =
      getConfigCompute (detectEnvironmentCompute p)) := by
  constructor
  · intro env
    refine ⟨rfl, ?_, ?_, ?_⟩ <;> simp [buildStrategies, getConfigCompute]
  · intro p
    rfl

end AngryCAPTCHA
